import Mathlib

/-!
# Verification of the C10d rendezvous backend

A shallow embedding of
`torch/distributed/elastic/rendezvous/c10d_rendezvous_backend.py` together
with proofs about its codec, its compare-and-set state protocol, its store
bootstrap and its error mapping.

Byte strings (`bytes` values in the Python code, store values, base64
text) are modelled as lists of naturals holding the byte values, exactly
the sequences the Python code manipulates.
-/

namespace C10d

/-- Byte strings: lists of byte values. -/
abbrev Bytes := List Nat

/-! ## The base64 codec (`codecs.encode/decode(-, "base64")`) -/

/-- Value-to-character table of the base64 alphabet used by
`binascii.b2a_base64`: `A`-`Z`, `a`-`z`, `0`-`9`, `+`, `/`. -/
def b64char (n : Nat) : Nat :=
  if n < 26 then 65 + n
  else if n < 52 then 97 + (n - 26)
  else if n < 62 then 48 + (n - 52)
  else if n = 62 then 43
  else 47

/-- Core base64 rendering of a byte list, without a trailing newline:
every three input bytes become four characters, and a short final group is
completed with `=` padding (code 61). -/
def encB64 : Bytes → Bytes
  | a :: b :: c :: rest =>
      b64char (a / 4) :: b64char (a % 4 * 16 + b / 16) ::
        b64char (b % 16 * 4 + c / 64) :: b64char (c % 64) :: encB64 rest
  | [a, b] => [b64char (a / 4), b64char (a % 4 * 16 + b / 16), b64char (b % 16 * 4), 61]
  | [a] => [b64char (a / 4), b64char (a % 4 * 16), 61, 61]
  | [] => []

/-- Recursion core of `base64.encodebytes`: the input is consumed in
57-byte chunks, each rendered by `binascii.b2a_base64`, which appends one
newline (code 10) per chunk.  The fuel argument, instantiated with the
length of the input, only bounds the recursion depth so that the
definition computes by structural recursion; `encodebytesAux_eq` shows the
fuel is irrelevant. -/
def encodebytesAux : Nat → Bytes → Bytes
  | _, [] => []
  | 0, _ :: _ => []
  | n + 1, a :: tl =>
      (encB64 ((a :: tl).take 57) ++ [10]) ++ encodebytesAux n ((a :: tl).drop 57)

/-- Encoding used by `set_state`: `codecs.encode(state, "base64")`, which is
`base64.encodebytes`.  Empty input gives empty output. -/
def encodebytes (s : Bytes) : Bytes :=
  encodebytesAux s.length s

/-- One classified base64 input symbol: a six-bit digit or the `=` padding
mark. -/
inductive B64Sym where
  | dig (n : Nat)
  | pad
deriving DecidableEq

/-- Character classification performed by `binascii.a2b_base64`: alphabet
characters map to their six-bit value, `=` is padding, and any other
character (the newline among them) is discarded. -/
def b64sym (c : Nat) : Option B64Sym :=
  if 65 ≤ c ∧ c ≤ 90 then some (.dig (c - 65))
  else if 97 ≤ c ∧ c ≤ 122 then some (.dig (c - 97 + 26))
  else if 48 ≤ c ∧ c ≤ 57 then some (.dig (c - 48 + 52))
  else if c = 43 then some (.dig 62)
  else if c = 47 then some (.dig 63)
  else if c = 61 then some .pad
  else none

/-- Digit-level base64 decoding: full quads of digits yield three bytes, a
final padded quad yields one or two bytes, and anything else is malformed
(`none`, the `binascii.Error` of the Python code). -/
def decSyms : List B64Sym → Option Bytes
  | [] => some []
  | [.dig a, .dig b, .pad, .pad] => some [a * 4 + b / 16]
  | [.dig a, .dig b, .dig c, .pad] => some [a * 4 + b / 16, b % 16 * 16 + c / 4]
  | .dig a :: .dig b :: .dig c :: .dig d :: rest =>
      (decSyms rest).map fun t =>
        (a * 4 + b / 16) :: (b % 16 * 16 + c / 4) :: (c % 4 * 64 + d) :: t
  | _ => none

/-- Decoding used by `_decode_state`: `codecs.decode(s, "base64")`, which is
`binascii.a2b_base64`: classify and filter the characters, then decode the
quads; `none` models the raised `binascii.Error`. -/
def a2b_base64 (s : Bytes) : Option Bytes :=
  decSyms (s.filterMap b64sym)

/-- Symbol-level image of `encB64`, used to relate encoding and decoding. -/
def symEnc : Bytes → List B64Sym
  | a :: b :: c :: rest =>
      .dig (a / 4) :: .dig (a % 4 * 16 + b / 16) ::
        .dig (b % 16 * 4 + c / 64) :: .dig (c % 64) :: symEnc rest
  | [a, b] => [.dig (a / 4), .dig (a % 4 * 16 + b / 16), .dig (b % 16 * 4), .pad]
  | [a] => [.dig (a / 4), .dig (a % 4 * 16), .pad, .pad]
  | [] => []

/-- The reserved sentinel literal `_NULL_SENTINEL = "Y2FuaW1hZGFt"`, as the
byte values of its (ASCII) encoding, the form in which the backend compares
it against stored values. -/
def NULL_SENTINEL : Bytes := [89, 50, 70, 117, 97, 87, 49, 104, 90, 71, 70, 116]

/-! ## The store model and the backend's error taxonomy -/

/-- Exceptions the store client may raise during an operation
(`ValueError`, `RuntimeError`). -/
inductive StoreExc where
  | valueError
  | runtimeError
deriving DecidableEq

/-- Errors surfaced by this module: `RendezvousConnectionError`,
`RendezvousStateError`, and the plain `ValueError` used for configuration
mistakes. -/
inductive Err where
  | connection
  | state
  | config
deriving DecidableEq

/-- Modelled from the spec: the shared key-value store
(`torch.distributed.TCPStore`, whose implementation is not among the
sources).  A key never written holds the store's "unset" default, the
empty value. -/
structure KVStore where
  entries : List (String × Bytes)
deriving DecidableEq

/-- Current value held at a key in an entry list, `none` when the key was
never written. -/
def lookupEntries (k : String) : List (String × Bytes) → Option Bytes
  | [] => none
  | (k2, v) :: rest => if k2 = k then some v else lookupEntries k rest

/-- Current value held at a key, `none` when the key was never written. -/
def KVStore.lookup (s : KVStore) (k : String) : Option Bytes :=
  lookupEntries k s.entries

/-- Write a value at a key in an entry list. -/
def setEntries (k : String) (v : Bytes) : List (String × Bytes) → List (String × Bytes)
  | [] => [(k, v)]
  | (k2, w) :: rest => if k2 = k then (k, v) :: rest else (k2, w) :: setEntries k v rest

/-- Write a value at a key. -/
def KVStore.set (s : KVStore) (k : String) (v : Bytes) : KVStore :=
  ⟨setEntries k v s.entries⟩

/-- Modelled from the spec: `compare_set(key, expected, desired)` atomically
writes `desired` iff the current value equals `expected` — a missing key
holding the store's "unset" default, the empty value — and always returns
the post-operation value at the key. -/
def KVStore.compare_set (s : KVStore) (k : String) (expected desired : Bytes) :
    KVStore × Bytes :=
  if (s.lookup k).getD [] = expected then (s.set k desired, desired)
  else (s, (s.lookup k).getD [])

/-! ## The backend (`C10dRendezvousBackend`) -/

/-- The key under which the state is stored:
`self._key = "torch.rendezvous." + run_id`. -/
def mkKey (runId : String) : String := "torch.rendezvous." ++ runId

/-- Models `_call_store`: a `ValueError` or `RuntimeError` raised by the
store client becomes a `RendezvousConnectionError`; a successful result is
passed through unchanged. -/
def call_store {α : Type} (r : Except StoreExc α) : Except Err α :=
  match r with
  | .ok a => .ok a
  | .error _ => .error .connection

/-- Models `_decode_state`: the sentinel means "no state" (`None`); any
other value is base64-decoded, a malformed one raising
`RendezvousStateError`; on success the decoded state is returned together
with the stored bytes as the token. -/
def decode_state (v : Bytes) : Except Err (Option (Bytes × Bytes)) :=
  if v = NULL_SENTINEL then .ok none
  else
    match a2b_base64 v with
    | none => .error .state
    | some st => .ok (some (st, v))

/-- Models `get_state` over the pure store: read the raw value at the key
and decode it.  A key with no value blocks the read until the timeout,
which the store surfaces as a failure mapped to a connection error. -/
def get_state (key : String) (store : KVStore) : Except Err (Option (Bytes × Bytes)) :=
  match store.lookup key with
  | none => .error .connection
  | some v => decode_state v

/-- A Python value supplied as the `token` argument (`Token` is `Any` in
the source). -/
inductive PyTok where
  | bytes (b : Bytes)
  | str (s : String)
  | int (n : Int)
deriving DecidableEq

/-- Python truthiness of the optional token, as tested by `if token:`. -/
def truthy : Option PyTok → Bool
  | none => false
  | some (.bytes b) => decide (b ≠ [])
  | some (.str s) => decide (s ≠ "")
  | some (.int n) => decide (n ≠ 0)

/-- Models `set_state`: encode the state; a truthy token that is not bytes
shortcuts to `get_state`; a truthy bytes token is the expected value of the
compare-and-set, while a falsy or absent token stands for the sentinel; the
post-operation value is decoded and returned alongside the updated store. -/
def set_state (key : String) (store : KVStore) (st : Bytes) (token : Option PyTok) :
    KVStore × Except Err (Option (Bytes × Bytes)) :=
  let enc := encodebytes st
  if truthy token then
    match token with
    | some (.bytes b) =>
        let r := store.compare_set key b enc
        (r.1, decode_state r.2)
    | _ => (store, get_state key store)
  else
    let r := store.compare_set key NULL_SENTINEL enc
    (r.1, decode_state r.2)

/-- Models `C10dRendezvousBackend.__init__`: reject an empty run id
(`ValueError`), derive the key, and seed the key with
`compare_set(key, "", NULL_SENTINEL)`; the result is the key together
with the store after seeding. -/
def initBackend (store : KVStore) (runId : String) : Except Err (String × KVStore) :=
  if runId = "" then .error .config
  else .ok (mkKey runId, (store.compare_set (mkKey runId) [] NULL_SENTINEL).1)

/-- Models `get_state` as a function of the raw outcome of the store `get`
call: the exception translation of `_call_store` followed by
`_decode_state`. -/
def get_state_raw (raw : Except StoreExc Bytes) : Except Err (Option (Bytes × Bytes)) :=
  match call_store raw with
  | .error e => .error e
  | .ok v => decode_state v

/-- Models `set_state` as a function of the raw outcome of the store
`compare_set` call: the exception translation of `_call_store` followed by
`_decode_state`. -/
def set_state_raw (raw : Except StoreExc Bytes) : Except Err (Option (Bytes × Bytes)) :=
  match call_store raw with
  | .error e => .error e
  | .ok v => decode_state v

/-! ## Store bootstrap (`_create_tcp_store`, `create_backend`) -/

/-- Models `_create_tcp_store`.  The endpoint's hostname heuristic
(`_matches_machine_hostname`) is abstracted by `heuristicIsHost`, and
whether instantiating a `TCPStore` in a given server role succeeds is
abstracted by the oracle `ok`.  The result records the list of roles
actually attempted alongside the outcome: the role of the store finally
connected, or the error raised. -/
def create_tcp_store (cfgIsHost : Option Bool) (heuristicIsHost : Bool)
    (readTimeout : Int) (ok : Bool → Bool) : List Bool × Except Err Bool :=
  if readTimeout ≤ 0 then ([], .error .config)
  else if ok (cfgIsHost.getD heuristicIsHost) then
    ([cfgIsHost.getD heuristicIsHost], .ok (cfgIsHost.getD heuristicIsHost))
  else if !(cfgIsHost.getD heuristicIsHost) || cfgIsHost.isSome then
    ([cfgIsHost.getD heuristicIsHost], .error .connection)
  else if ok false then ([cfgIsHost.getD heuristicIsHost, false], .ok false)
  else ([cfgIsHost.getD heuristicIsHost, false], .error .connection)

/-- Modelled from the spec: the rendezvous parameters consulted by
`create_backend` and `_create_tcp_store` (`RendezvousParameters` lives in
`api.py`, outside the sources): the run id and the `store_type`,
`read_timeout` and `is_host` configuration options, `none` when unset.
The store type is kept as the byte values of its characters. -/
structure RendezvousParameters where
  runId : String
  storeType : Option Bytes
  readTimeout : Option Int
  isHost : Option Bool

/-- Byte values of the string `tcp`. -/
def tcpBytes : Bytes := [116, 99, 112]

/-- Python `c.lower()` on one character code. -/
def lowerByte (c : Nat) : Nat := if 65 ≤ c ∧ c ≤ 90 then c + 32 else c

/-- Python whitespace, as stripped by `str.strip()`. -/
def isSpaceByte (c : Nat) : Bool :=
  c = 32 || c = 9 || c = 10 || c = 13 || c = 11 || c = 12

/-- Models `params.get("store_type", "tcp").strip().lower()`. -/
def storeTypeNorm (p : RendezvousParameters) : Bytes :=
  ((((p.storeType.getD tcpBytes).dropWhile isSpaceByte).reverse.dropWhile
      isSpaceByte).reverse).map lowerByte

/-- Models `create_backend`: validate the store type, bootstrap the TCP
store (whose key-value content is `store`), and construct the backend over
it; the result is the key and the seeded store. -/
def create_backend (p : RendezvousParameters) (heuristicIsHost : Bool)
    (ok : Bool → Bool) (store : KVStore) : Except Err (String × KVStore) :=
  if storeTypeNorm p ≠ tcpBytes then .error .config
  else
    match (create_tcp_store p.isHost heuristicIsHost (p.readTimeout.getD 60) ok).2 with
    | .error e => .error e
    | .ok _ => initBackend store p.runId

/-! ## Equation lemmas for the codec -/

theorem encB64_cons3 (a b c : Nat) (rest : Bytes) :
    encB64 (a :: b :: c :: rest) =
      b64char (a / 4) :: b64char (a % 4 * 16 + b / 16) ::
        b64char (b % 16 * 4 + c / 64) :: b64char (c % 64) :: encB64 rest := rfl

theorem encB64_two (a b : Nat) :
    encB64 [a, b] =
      [b64char (a / 4), b64char (a % 4 * 16 + b / 16), b64char (b % 16 * 4), 61] := rfl

theorem encB64_one (a : Nat) :
    encB64 [a] = [b64char (a / 4), b64char (a % 4 * 16), 61, 61] := rfl

theorem encB64_nil : encB64 [] = [] := rfl

theorem symEnc_cons3 (a b c : Nat) (rest : Bytes) :
    symEnc (a :: b :: c :: rest) =
      .dig (a / 4) :: .dig (a % 4 * 16 + b / 16) ::
        .dig (b % 16 * 4 + c / 64) :: .dig (c % 64) :: symEnc rest := rfl

theorem symEnc_two (a b : Nat) :
    symEnc [a, b] =
      [.dig (a / 4), .dig (a % 4 * 16 + b / 16), .dig (b % 16 * 4), .pad] := rfl

theorem symEnc_one (a : Nat) :
    symEnc [a] = [.dig (a / 4), .dig (a % 4 * 16), .pad, .pad] := rfl

theorem symEnc_nil : symEnc [] = [] := rfl

theorem decSyms_nil : decSyms [] = some [] := rfl

theorem decSyms_two (a b : Nat) :
    decSyms [.dig a, .dig b, .pad, .pad] = some [a * 4 + b / 16] := rfl

theorem decSyms_three (a b c : Nat) :
    decSyms [.dig a, .dig b, .dig c, .pad] =
      some [a * 4 + b / 16, b % 16 * 16 + c / 4] := rfl

theorem decSyms_quad (a b c d : Nat) (rest : List B64Sym) :
    decSyms (.dig a :: .dig b :: .dig c :: .dig d :: rest) =
      (decSyms rest).map fun t =>
        (a * 4 + b / 16) :: (b % 16 * 16 + c / 4) :: (c % 4 * 64 + d) :: t := rfl

/-! ## Codec round-trip -/

/-- Induction following the three-byte groups of the base64 encoder. -/
theorem bytes3_induction (P : Bytes → Prop) (h0 : P []) (h1 : ∀ a, P [a])
    (h2 : ∀ a b, P [a, b]) (h3 : ∀ a b c rest, P rest → P (a :: b :: c :: rest)) :
    ∀ s, P s := by
  have haux : ∀ n (s : Bytes), s.length ≤ n → P s := by
    intro n
    induction n with
    | zero =>
        intro s hl
        have hs : s = [] := List.length_eq_zero.mp (Nat.le_zero.mp hl)
        rw [hs]
        exact h0
    | succ n ih =>
        intro s hl
        rcases s with _ | ⟨a, _ | ⟨b, _ | ⟨c, rest⟩⟩⟩
        · exact h0
        · exact h1 a
        · exact h2 a b
        · refine h3 a b c rest (ih rest ?_)
          simp only [List.length_cons] at hl
          omega
  exact fun s => haux s.length s (le_refl _)

/-- The classifier inverts the alphabet table on six-bit values. -/
theorem b64sym_b64char : ∀ n, n < 64 → b64sym (b64char n) = some (.dig n) := by
  decide

theorem b64sym_pad : b64sym 61 = some .pad := by decide

theorem b64sym_newline : b64sym 10 = none := by decide

/-- Filtering the characters of the core encoder recovers its symbol-level
image, provided all input bytes are below 256. -/
theorem filterMap_encB64 (s : Bytes) (hs : ∀ x ∈ s, x < 256) :
    (encB64 s).filterMap b64sym = symEnc s := by
  induction s using bytes3_induction with
  | h0 => simp [encB64_nil, symEnc_nil]
  | h1 a =>
      have ha : a < 256 := hs a (by simp)
      have e0 := b64sym_b64char (a / 4) (by omega)
      have e1 := b64sym_b64char (a % 4 * 16) (by omega)
      simp [encB64_one, symEnc_one, List.filterMap_cons, e0, e1, b64sym_pad]
  | h2 a b =>
      have ha : a < 256 := hs a (by simp)
      have hb : b < 256 := hs b (by simp)
      have e0 := b64sym_b64char (a / 4) (by omega)
      have e1 := b64sym_b64char (a % 4 * 16 + b / 16) (by omega)
      have e2 := b64sym_b64char (b % 16 * 4) (by omega)
      simp [encB64_two, symEnc_two, List.filterMap_cons, e0, e1, e2, b64sym_pad]
  | h3 a b c rest ih =>
      have ha : a < 256 := hs a (by simp)
      have hb : b < 256 := hs b (by simp)
      have hc : c < 256 := hs c (by simp)
      have e0 := b64sym_b64char (a / 4) (by omega)
      have e1 := b64sym_b64char (a % 4 * 16 + b / 16) (by omega)
      have e2 := b64sym_b64char (b % 16 * 4 + c / 64) (by omega)
      have e3 := b64sym_b64char (c % 64) (by omega)
      have ihr := ih (fun x hx => hs x (by simp [hx]))
      simp [encB64_cons3, symEnc_cons3, List.filterMap_cons, e0, e1, e2, e3, ihr]

/-- The symbol-level encoder distributes over appending when the first part
consists of whole three-byte groups. -/
theorem symEnc_append (a b : Bytes) (h : a.length % 3 = 0) :
    symEnc (a ++ b) = symEnc a ++ symEnc b := by
  induction a using bytes3_induction with
  | h0 => simp [symEnc_nil]
  | h1 x => simp only [List.length_cons, List.length_nil] at h; omega
  | h2 x y => simp only [List.length_cons, List.length_nil] at h; omega
  | h3 x y z rest ih =>
      have hr : rest.length % 3 = 0 := by
        simp only [List.length_cons] at h; omega
      simp only [List.cons_append, symEnc_cons3, ih hr]

/-- Digit-level decoding inverts the symbol-level encoder on byte lists. -/
theorem decSyms_symEnc (s : Bytes) (hs : ∀ x ∈ s, x < 256) :
    decSyms (symEnc s) = some s := by
  induction s using bytes3_induction with
  | h0 => simp [symEnc_nil, decSyms_nil]
  | h1 a =>
      have ha : a < 256 := hs a (by simp)
      simp only [symEnc_one, decSyms_two, Option.some.injEq, List.cons.injEq, and_true]
      omega
  | h2 a b =>
      have ha : a < 256 := hs a (by simp)
      have hb : b < 256 := hs b (by simp)
      simp only [symEnc_two, decSyms_three, Option.some.injEq, List.cons.injEq, and_true]
      constructor
      · omega
      · omega
  | h3 a b c rest ih =>
      have ha : a < 256 := hs a (by simp)
      have hb : b < 256 := hs b (by simp)
      have hc : c < 256 := hs c (by simp)
      have ihr := ih (fun x hx => hs x (by simp [hx]))
      simp only [symEnc_cons3, decSyms_quad, ihr, Option.map_some', Option.some.injEq,
        List.cons.injEq, and_true]
      refine ⟨?_, ?_, ?_⟩
      · omega
      · omega
      · omega

/-- The fuel of `encodebytesAux` is irrelevant once it reaches the length
of the input. -/
theorem encodebytesAux_fuel : ∀ n (s : Bytes), s.length ≤ n → ∀ m, s.length ≤ m →
    encodebytesAux n s = encodebytesAux m s := by
  intro n
  induction n with
  | zero =>
      intro s hl m hm
      have hs : s = [] := List.length_eq_zero.mp (Nat.le_zero.mp hl)
      subst hs
      cases m <;> rfl
  | succ n ih =>
      intro s hl m hm
      rcases s with _ | ⟨a, tl⟩
      · cases m <;> rfl
      · rcases m with _ | m2
        · exfalso
          simp only [List.length_cons] at hm
          omega
        · show (encB64 ((a :: tl).take 57) ++ [10]) ++ encodebytesAux n ((a :: tl).drop 57) =
            (encB64 ((a :: tl).take 57) ++ [10]) ++ encodebytesAux m2 ((a :: tl).drop 57)
          congr 1
          refine ih _ ?_ _ ?_
          · simp only [List.length_drop, List.length_cons]
            simp only [List.length_cons] at hl
            omega
          · simp only [List.length_drop, List.length_cons]
            simp only [List.length_cons] at hm
            omega

/-- The fuel of `encodebytesAux` may take any value at least the length of
the input. -/
theorem encodebytesAux_eq (n : Nat) (s : Bytes) (h : s.length ≤ n) :
    encodebytesAux n s = encodebytes s :=
  encodebytesAux_fuel n s h s.length (le_refl _)

theorem encodebytes_nil : encodebytes [] = [] := rfl

/-- The chunking equation of `base64.encodebytes`. -/
theorem encodebytes_cons (s : Bytes) (h : s ≠ []) :
    encodebytes s = (encB64 (s.take 57) ++ [10]) ++ encodebytes (s.drop 57) := by
  obtain ⟨a, tl, rfl⟩ := List.exists_cons_of_ne_nil h
  show encodebytesAux (a :: tl).length (a :: tl) = _
  simp only [List.length_cons]
  show (encB64 ((a :: tl).take 57) ++ [10]) ++ encodebytesAux tl.length ((a :: tl).drop 57) = _
  congr 1
  exact encodebytesAux_eq tl.length _
    (by simp only [List.length_drop, List.length_cons]; omega)

/-- Filtering the characters of the full encoder recovers the symbol-level
image of the whole input: the newlines inserted every 57 bytes are
discarded and the 57-byte chunks merge, 57 being a multiple of three. -/
theorem filterMap_encodebytes (s : Bytes) (hs : ∀ x ∈ s, x < 256) :
    (encodebytes s).filterMap b64sym = symEnc s := by
  have haux : ∀ n (s : Bytes), s.length ≤ n → (∀ x ∈ s, x < 256) →
      (encodebytes s).filterMap b64sym = symEnc s := by
    intro n
    induction n with
    | zero =>
        intro s hl _
        have hs0 : s = [] := List.length_eq_zero.mp (Nat.le_zero.mp hl)
        rw [hs0, encodebytes_nil, symEnc_nil]
        rfl
    | succ n ih =>
        intro s hl hs2
        by_cases he : s = []
        · rw [he, encodebytes_nil, symEnc_nil]; rfl
        · rw [encodebytes_cons s he, List.filterMap_append, List.filterMap_append]
          have htk : ∀ x ∈ s.take 57, x < 256 := fun x hx => hs2 x (List.mem_of_mem_take hx)
          have hdp : ∀ x ∈ s.drop 57, x < 256 := fun x hx => hs2 x (List.mem_of_mem_drop hx)
          have hlen : (s.drop 57).length ≤ n := by
            have := List.length_pos.mpr he
            simp only [List.length_drop]
            omega
          rw [filterMap_encB64 _ htk, ih _ hlen hdp]
          have hnl : List.filterMap b64sym [10] = [] := by
            simp [List.filterMap_cons, b64sym_newline]
          rw [hnl, List.append_nil]
          by_cases hlong : 57 ≤ s.length
          · have h57 : (s.take 57).length % 3 = 0 := by
              simp only [List.length_take]
              omega
            conv_rhs => rw [← List.take_append_drop 57 s]
            rw [symEnc_append _ _ h57]
          · have hdrop0 : s.drop 57 = [] := List.drop_eq_nil_of_le (by omega)
            have htake : s.take 57 = s := List.take_of_length_le (by omega)
            rw [hdrop0, htake, symEnc_nil, List.append_nil]
  exact haux s.length s (le_refl _) hs

/-- Decoding inverts encoding on byte lists. -/
theorem a2b_encodebytes (s : Bytes) (hs : ∀ x ∈ s, x < 256) :
    a2b_base64 (encodebytes s) = some s := by
  unfold a2b_base64
  rw [filterMap_encodebytes s hs, decSyms_symEnc s hs]

/-- A nonempty input encodes to a chunk list ending in a newline. -/
theorem encodebytes_ends (s : Bytes) (h : s ≠ []) :
    ∃ t, encodebytes s = t ++ [10] := by
  have haux : ∀ n (s : Bytes), s.length ≤ n → s ≠ [] → ∃ t, encodebytes s = t ++ [10] := by
    intro n
    induction n with
    | zero =>
        intro s hl hne
        exact absurd (List.length_eq_zero.mp (Nat.le_zero.mp hl)) hne
    | succ n ih =>
        intro s hl hne
        rw [encodebytes_cons s hne]
        by_cases hd : s.drop 57 = []
        · exact ⟨encB64 (s.take 57), by rw [hd, encodebytes_nil, List.append_nil]⟩
        · have hlen : (s.drop 57).length ≤ n := by
            have := List.length_pos.mpr hne
            simp only [List.length_drop]
            omega
          obtain ⟨t, ht⟩ := ih _ hlen hd
          exact ⟨(encB64 (s.take 57) ++ [10]) ++ t, by rw [ht]; simp [List.append_assoc]⟩
  exact haux s.length s (le_refl _) h

/-- No encoded value collides with the sentinel: the empty input encodes to
the empty value, and any other encoding ends in a newline while the
sentinel ends in `t`. -/
theorem encodebytes_ne_sentinel (s : Bytes) : encodebytes s ≠ NULL_SENTINEL := by
  by_cases h : s = []
  · rw [h, encodebytes_nil]
    decide
  · obtain ⟨t, ht⟩ := encodebytes_ends s h
    rw [ht]
    intro hc
    have h1 : (t ++ [10]).getLast? = NULL_SENTINEL.getLast? := congrArg List.getLast? hc
    rw [List.getLast?_concat] at h1
    have h2 : NULL_SENTINEL.getLast? = some 116 := by decide
    rw [h2] at h1
    simp at h1

/-- `_decode_state` inverts the encoding of `set_state`, returning the
state together with its encoding as the token. -/
theorem decode_state_encodebytes (s : Bytes) (hs : ∀ x ∈ s, x < 256) :
    decode_state (encodebytes s) = .ok (some (s, encodebytes s)) := by
  unfold decode_state
  rw [if_neg (encodebytes_ne_sentinel s), a2b_encodebytes s hs]

/-! ## Store helper lemmas -/

theorem lookupEntries_setEntries (k : String) (v : Bytes) (l : List (String × Bytes)) :
    lookupEntries k (setEntries k v l) = some v := by
  induction l with
  | nil => simp [setEntries, lookupEntries]
  | cons hd tl ih =>
      obtain ⟨k2, w⟩ := hd
      by_cases hk : k2 = k
      · simp [setEntries, lookupEntries, hk]
      · simp [setEntries, lookupEntries, hk, ih]

/-- Reading back a key just written yields the written value. -/
theorem KVStore.lookup_set (s : KVStore) (k : String) (v : Bytes) :
    (s.set k v).lookup k = some v :=
  lookupEntries_setEntries k v s.entries

/-- Branch analysis of `set_state`: the expected value of the
compare-and-set is the sentinel for a falsy token and the token's bytes for
a truthy bytes token, while a truthy token of any other type shortcuts to
`get_state`. -/
theorem set_state_branches (key : String) (store : KVStore) (st : Bytes)
    (token : Option PyTok) :
    (truthy token = false →
        set_state key store st token =
          ((store.compare_set key NULL_SENTINEL (encodebytes st)).1,
            decode_state (store.compare_set key NULL_SENTINEL (encodebytes st)).2))
    ∧ (∀ b, token = some (.bytes b) → truthy token = true →
        set_state key store st token =
          ((store.compare_set key b (encodebytes st)).1,
            decode_state (store.compare_set key b (encodebytes st)).2))
    ∧ (truthy token = true → (∀ b, token ≠ some (.bytes b)) →
        set_state key store st token = (store, get_state key store)) := by
  refine ⟨?_, ?_, ?_⟩
  · intro h
    simp [set_state, h]
  · rintro b rfl h
    simp [set_state, h]
  · intro h hb
    rcases token with _ | tk
    · simp [truthy] at h
    · rcases tk with b | s2 | n
      · exact absurd rfl (hb b)
      · simp [set_state, h]
      · simp [set_state, h]

/-! ## Claims -/

/-- C1 counterexample: the claim states that a present token that is not of
the bytes type makes `set_state` shortcut to a read without performing the
compare-and-set round trip; at the present, non-bytes token `0` the code
instead takes the falsy branch and performs the compare-and-set against the
sentinel, which here succeeds and changes the store. -/
theorem set_state_wrong_type_counterexample :
    (set_state (mkKey "r") ⟨[(mkKey "r", NULL_SENTINEL)]⟩ [1] (some (.int 0))).1 ≠
      ⟨[(mkKey "r", NULL_SENTINEL)]⟩ := by
  decide

/-- C1 (amended): in `set_state`, an absent or falsy token makes the
sentinel the expected value of the compare-and-set; a truthy token that is
not of the bytes type shortcuts to a read of the latest state with no
compare-and-set; a truthy bytes token is used as the expected value. -/
theorem set_state_expected (key : String) (store : KVStore) (st : Bytes)
    (token : Option PyTok) :
    (truthy token = false →
        set_state key store st token =
          ((store.compare_set key NULL_SENTINEL (encodebytes st)).1,
            decode_state (store.compare_set key NULL_SENTINEL (encodebytes st)).2))
    ∧ (∀ b, token = some (.bytes b) → truthy token = true →
        set_state key store st token =
          ((store.compare_set key b (encodebytes st)).1,
            decode_state (store.compare_set key b (encodebytes st)).2))
    ∧ (truthy token = true → (∀ b, token ≠ some (.bytes b)) →
        set_state key store st token = (store, get_state key store)) :=
  set_state_branches key store st token

theorem set_state_expected_witness :
    set_state "k" ⟨[]⟩ [2] (some (.bytes [1])) =
      ((KVStore.compare_set ⟨[]⟩ "k" [1] (encodebytes [2])).1,
        decode_state (KVStore.compare_set ⟨[]⟩ "k" [1] (encodebytes [2])).2) :=
  (set_state_expected "k" ⟨[]⟩ [2] (some (.bytes [1]))).2.1 [1] rfl (by decide)

/-- C2: `set_state` performs exactly one compare-and-set attempt: the
encoded state is written iff the current value equals the expected value,
the post-operation value is returned decoded, and a caller whose token no
longer matches receives the winner's state and token back, not an error. -/
theorem set_state_single_cas (key : String) (store : KVStore) (st cur : Bytes)
    (token : Option PyTok) (expected : Bytes)
    (hexp : (truthy token = false ∧ expected = NULL_SENTINEL) ∨
      (∃ b, token = some (.bytes b) ∧ truthy token = true ∧ expected = b))
    (hcur : store.lookup key = some cur) :
    (cur = expected →
        set_state key store st token =
          (store.set key (encodebytes st), decode_state (encodebytes st)))
    ∧ (cur ≠ expected → set_state key store st token = (store, decode_state cur))
    ∧ (∀ w, cur ≠ expected → cur = encodebytes w → (∀ x ∈ w, x < 256) →
        (set_state key store st token).2 = .ok (some (w, cur))) := by
  have hset : set_state key store st token =
      ((store.compare_set key expected (encodebytes st)).1,
        decode_state (store.compare_set key expected (encodebytes st)).2) := by
    rcases hexp with ⟨h1, rfl⟩ | ⟨b, rfl, h1, rfl⟩
    · exact (set_state_branches key store st _).1 h1
    · exact (set_state_branches key store st _).2.1 _ rfl h1
  refine ⟨?_, ?_, ?_⟩
  · intro he
    rw [hset]
    unfold KVStore.compare_set
    rw [hcur]
    simp [he, KVStore.set]
  · intro hne
    rw [hset]
    unfold KVStore.compare_set
    rw [hcur]
    simp only [Option.getD_some]
    rw [if_neg hne]
  · intro w hne hcurw hw
    rw [hset]
    unfold KVStore.compare_set
    rw [hcur]
    simp only [Option.getD_some]
    rw [if_neg hne]
    show decode_state cur = _
    rw [hcurw, decode_state_encodebytes w hw, ← hcurw]

theorem set_state_single_cas_witness :
    set_state "k" ⟨[("k", NULL_SENTINEL)]⟩ [1] none =
      (KVStore.set ⟨[("k", NULL_SENTINEL)]⟩ "k" (encodebytes [1]),
        decode_state (encodebytes [1])) :=
  (set_state_single_cas "k" ⟨[("k", NULL_SENTINEL)]⟩ [1] NULL_SENTINEL none NULL_SENTINEL
    (Or.inl ⟨rfl, rfl⟩) rfl).1 rfl

/-- C3: for every byte sequence, including the empty one, decoding the
encoded form yields exactly the sequence together with its encoding as the
token. -/
theorem decode_encode_roundtrip (x : Bytes) (hx : ∀ b ∈ x, b < 256) :
    decode_state (encodebytes x) = .ok (some (x, encodebytes x)) :=
  decode_state_encodebytes x hx

theorem decode_encode_roundtrip_witness :
    decode_state (encodebytes []) = .ok (some ([], encodebytes [])) ∧
      decode_state (encodebytes [77, 97, 110]) =
        .ok (some ([77, 97, 110], encodebytes [77, 97, 110])) :=
  ⟨decode_encode_roundtrip [] (by simp),
    decode_encode_roundtrip [77, 97, 110] (by decide)⟩

/-- C4: construction seeds the key with one compare-and-set whose expected
value is the store's unset default and whose desired value is the sentinel:
a pre-existing value is never overwritten, and over a store with no prior
value at the key the seed writes the sentinel, after which `get_state`
returns no state. -/
theorem init_seed (runId : String) (store : KVStore) (h : runId ≠ "") :
    (∀ v, store.lookup (mkKey runId) = some v → v ≠ [] →
        initBackend store runId = .ok (mkKey runId, store))
    ∧ (store.lookup (mkKey runId) = none →
        initBackend store runId =
            .ok (mkKey runId, store.set (mkKey runId) NULL_SENTINEL)
          ∧ get_state (mkKey runId) (store.set (mkKey runId) NULL_SENTINEL) = .ok none) := by
  constructor
  · intro v hv hvne
    unfold initBackend
    rw [if_neg h]
    unfold KVStore.compare_set
    rw [hv]
    simp only [Option.getD_some]
    rw [if_neg hvne]
  · intro hn
    unfold initBackend
    rw [if_neg h]
    unfold KVStore.compare_set
    rw [hn]
    simp only [Option.getD_none, if_pos rfl]
    refine ⟨rfl, ?_⟩
    simp [get_state, KVStore.lookup_set, decode_state]

theorem init_seed_witness :
    initBackend ⟨[]⟩ "r" = .ok (mkKey "r", KVStore.set ⟨[]⟩ (mkKey "r") NULL_SENTINEL) ∧
      get_state (mkKey "r") (KVStore.set ⟨[]⟩ (mkKey "r") NULL_SENTINEL) = .ok none :=
  (init_seed "r" ⟨[]⟩ (by decide)).2 rfl

/-- C5: with a positive read timeout, a successful first attempt connects
in the resolved role with no second attempt; a failed first attempt in a
heuristically inferred server role is followed by exactly one fallback
attempt in the client role; any other failure — an explicit role or a
first attempt already in the client role — raises a connection error after
the single attempt. -/
theorem tcp_store_fallback (cfg : Option Bool) (h : Bool) (t : Int)
    (ok : Bool → Bool) (ht : 0 < t) :
    (ok (cfg.getD h) = true →
        create_tcp_store cfg h t ok = ([cfg.getD h], .ok (cfg.getD h)))
    ∧ (ok true = false → cfg = none → h = true →
        create_tcp_store cfg h t ok =
          ([true, false], if ok false then .ok false else .error .connection))
    ∧ (ok (cfg.getD h) = false → (cfg.getD h = false ∨ cfg ≠ none) →
        create_tcp_store cfg h t ok = ([cfg.getD h], .error .connection)) := by
  have hnt : ¬ t ≤ 0 := by omega
  refine ⟨?_, ?_, ?_⟩
  · intro hok
    simp [create_tcp_store, hnt, hok]
  · rintro hok rfl rfl
    cases hf : ok false <;> simp [create_tcp_store, hnt, hok, hf]
  · intro hok hrole
    rcases hrole with hfalse | hsome
    · rw [hfalse] at hok
      simp [create_tcp_store, hnt, hok, hfalse]
    · have hs : cfg.isSome = true := Option.isSome_iff_ne_none.mpr hsome
      simp [create_tcp_store, hnt, hok, hs]

theorem tcp_store_fallback_witness :
    create_tcp_store none true 60 (fun r => !r) =
      ([true, false], if (fun r : Bool => !r) false then Except.ok false
        else Except.error Err.connection) :=
  (tcp_store_fallback none true 60 (fun r => !r) (by omega)).2.1 rfl rfl rfl

/-- C6 counterexample: the claim names the store key
`"rendezvous." + run_id`; the backend key for run id `a` differs from it. -/
theorem backend_key_counterexample : mkKey "a" ≠ "rendezvous.a" := by
  decide

/-- C6 (amended): for every non-empty run id, the backend constructed over
it reads and writes the state under the single key
`"torch.rendezvous." + run_id`. -/
theorem backend_key (runId : String) (store : KVStore) (h : runId ≠ "") :
    ∃ s2, initBackend store runId = .ok ("torch.rendezvous." ++ runId, s2) := by
  unfold initBackend
  rw [if_neg h]
  exact ⟨_, rfl⟩

theorem backend_key_witness :
    ∃ s2, initBackend ⟨[]⟩ "job-42" = .ok ("torch.rendezvous." ++ "job-42", s2) :=
  backend_key "job-42" ⟨[]⟩ (by decide)

/-- C7: every store-client failure during the store operation of
`get_state` or `set_state` is mapped to the connection error, and a stored
value that is neither the sentinel nor valid base64 raises the state
error; successful store results are never swallowed into errors. -/
theorem store_failure_mapping :
    (∀ exc, get_state_raw (.error exc) = .error .connection)
    ∧ (∀ exc, set_state_raw (.error exc) = .error .connection)
    ∧ (∀ v, v ≠ NULL_SENTINEL → a2b_base64 v = none →
        get_state_raw (.ok v) = .error .state)
    ∧ (∀ v, v ≠ NULL_SENTINEL → a2b_base64 v = none →
        set_state_raw (.ok v) = .error .state)
    ∧ (∀ v, get_state_raw (.ok v) = decode_state v) := by
  refine ⟨fun exc => rfl, fun exc => rfl, ?_, ?_, fun v => rfl⟩
  · intro v hv ha
    show decode_state v = _
    unfold decode_state
    rw [if_neg hv, ha]
  · intro v hv ha
    show decode_state v = _
    unfold decode_state
    rw [if_neg hv, ha]

theorem store_failure_mapping_witness :
    get_state_raw (.error .runtimeError) = .error .connection ∧
      set_state_raw (.ok [65]) = .error .state :=
  ⟨store_failure_mapping.1 .runtimeError,
    store_failure_mapping.2.2.2.1 [65] (by decide) rfl⟩

/-- C8: a configuration `ValueError` arises in exactly three situations —
an unsupported store type at backend creation, a non-positive read timeout
at store bootstrap, and an empty run id at backend construction — and when
the three conditions are met the result is never a configuration error
(only success or a connection error), so none of the three is retried. -/
theorem config_error_cases (p : RendezvousParameters) (h : Bool) (ok : Bool → Bool)
    (store : KVStore) :
    (storeTypeNorm p ≠ tcpBytes → create_backend p h ok store = .error .config)
    ∧ (storeTypeNorm p = tcpBytes → p.readTimeout.getD 60 ≤ 0 →
        create_backend p h ok store = .error .config)
    ∧ (storeTypeNorm p = tcpBytes →
        ∀ r, (create_tcp_store p.isHost h (p.readTimeout.getD 60) ok).2 = .ok r →
          p.runId = "" → create_backend p h ok store = .error .config)
    ∧ (storeTypeNorm p = tcpBytes → 0 < p.readTimeout.getD 60 → p.runId ≠ "" →
        create_backend p h ok store ≠ .error .config) := by
  refine ⟨?_, ?_, ?_, ?_⟩
  · intro hst
    simp [create_backend, hst]
  · intro hst ht
    have h2 : (create_tcp_store p.isHost h (p.readTimeout.getD 60) ok).2 =
        .error .config := by
      unfold create_tcp_store
      rw [if_pos ht]
    simp [create_backend, hst, h2]
  · intro hst r hok hrun
    simp [create_backend, hst, hok, initBackend, hrun]
  · intro hst ht hrun
    have hnc : (create_tcp_store p.isHost h (p.readTimeout.getD 60) ok).2 ≠
        .error .config := by
      unfold create_tcp_store
      rw [if_neg (by omega)]
      split
      · simp
      · split
        · simp
        · split
          · simp
          · simp
    unfold create_backend
    rw [if_neg (by simp [hst])]
    split
    · rename_i e heq
      intro hc
      apply hnc
      rw [heq]
      have he : e = Err.config := by injection hc
      rw [he]
    · rename_i r heq
      unfold initBackend
      rw [if_neg hrun]
      simp

theorem config_error_cases_witness :
    create_backend ⟨"r", none, some 0, none⟩ false (fun _ => true) ⟨[]⟩ =
      .error .config :=
  (config_error_cases ⟨"r", none, some 0, none⟩ false (fun _ => true) ⟨[]⟩).2.1 rfl
    (by decide)

/-- C9 counterexample: the claim states that the encoded stored value ends
with a newline for every byte sequence; the empty sequence encodes to the
empty value, which does not. -/
theorem encode_newline_counterexample :
    ¬ ((encodebytes []).getLast? = some 10) := by
  decide

/-- C9 (amended): the value `set_state` stores for a non-empty byte
sequence ends with a newline, and for every byte sequence — the empty one
included — the stored value differs from the reserved sentinel, so no
value written through `set_state` is ever decoded as "no state". -/
theorem encode_newline_sentinel (x : Bytes) :
    (x ≠ [] → (encodebytes x).getLast? = some 10)
    ∧ encodebytes x ≠ NULL_SENTINEL
    ∧ decode_state (encodebytes x) ≠ .ok none := by
  refine ⟨?_, encodebytes_ne_sentinel x, ?_⟩
  · intro h
    obtain ⟨t, ht⟩ := encodebytes_ends x h
    rw [ht, List.getLast?_concat]
  · unfold decode_state
    rw [if_neg (encodebytes_ne_sentinel x)]
    cases a2b_base64 (encodebytes x) <;> simp

theorem encode_newline_sentinel_witness :
    (encodebytes [1]).getLast? = some 10 ∧ encodebytes [1] ≠ NULL_SENTINEL :=
  ⟨(encode_newline_sentinel [1]).1 (by decide), (encode_newline_sentinel [1]).2.1⟩

/-- C10: a falsy token that is not `None` — the empty byte string among
them — is treated exactly as an absent token: `set_state` behaves
identically, so the compare-and-set expects the sentinel and neither the
wrong-type shortcut nor the token bytes are used. -/
theorem falsy_token_as_none (key : String) (store : KVStore) (st : Bytes)
    (tok : PyTok) (h : truthy (some tok) = false) :
    set_state key store st (some tok) = set_state key store st none := by
  have hn : truthy (none : Option PyTok) = false := rfl
  simp [set_state, h, hn]

theorem falsy_token_as_none_witness :
    truthy (some (.bytes [])) = false ∧
      set_state "k" ⟨[]⟩ [1] (some (.bytes [])) = set_state "k" ⟨[]⟩ [1] none :=
  ⟨by decide, falsy_token_as_none "k" ⟨[]⟩ [1] (.bytes []) (by decide)⟩

end C10d
